import Mathlib

/-!
Verification development for `copilot_changelog_to_discord.py`, a small
changelog-to-webhook notification pipeline.  The Python source is embedded
shallowly: pure helpers become Lean functions, the module-level environment
configuration becomes an explicit `Config` record, the network is an oracle
`Nat → Bool` giving the success of each successive HTTP post, and the state
file becomes an explicit `StateFile` value threaded through the run.
The HTML-stripping library (BeautifulSoup `get_text`) is out of scope and is
passed in as a function parameter `sh : String → String`; on markup-free text
it is the identity.
-/

namespace CopilotChangelog

/-- Characters treated as whitespace by Python's `str.strip` / regex `\s`
(ASCII fragment, which is all the program's inputs use). -/
def pyIsSpace (c : Char) : Bool :=
  c = ' ' || c = '\t' || c = '\n' || c = '\r' || c = '\x0b' || c = '\x0c'

/-- Drop elements satisfying `p` from the end of a list. -/
def rdropWhileP (p : Char → Bool) (l : List Char) : List Char :=
  ((l.reverse).dropWhile p).reverse

/-- Python `str.strip()` with a custom character predicate: drop matching
characters from both ends. -/
def stripP (p : Char → Bool) (l : List Char) : List Char :=
  rdropWhileP p (l.dropWhile p)

/-- Python `str.strip()` (whitespace on both ends). -/
def pyStrip (s : String) : String :=
  ⟨stripP pyIsSpace s.toList⟩

/-- Python `str.rstrip()` (whitespace on the right end). -/
def pyRStrip (s : String) : String :=
  ⟨rdropWhileP pyIsSpace s.toList⟩

/-- Python `s.strip('\'" ')`: drop single quotes, double quotes and spaces
from both ends. -/
def stripQuotesSpaces (s : String) : String :=
  ⟨stripP (fun c => c = '\'' || c = '"' || c = ' ') s.toList⟩

/-- `re.sub(r"\s+", " ", s)`: replace every maximal whitespace run by a
single space. -/
def collapseWs : List Char → List Char
  | [] => []
  | [c] => if pyIsSpace c then [' '] else [c]
  | c₁ :: c₂ :: rest =>
      if pyIsSpace c₁ && pyIsSpace c₂ then collapseWs (c₂ :: rest)
      else (if pyIsSpace c₁ then ' ' else c₁) :: collapseWs (c₂ :: rest)

/-- The trailing characters removed by `re.sub(r"[\s\-–—:.,;!?#]+$", "", s)`. -/
def isTrailingPunct (c : Char) : Bool :=
  pyIsSpace c || c = '-' || c = '–' || c = '—' || c = ':' || c = '.' ||
    c = ',' || c = ';' || c = '!' || c = '?' || c = '#'

/-- Python slice `s[:k]` with Python semantics for a possibly negative `k`
(a negative bound counts from the end of the string). -/
def pySliceTo (s : String) (k : Int) : String :=
  if k < 0 then ⟨s.toList.take ((s.length : Int) + k).toNat⟩
  else ⟨s.toList.take k.toNat⟩

/-- Python truthiness of an optional string: present and non-empty. -/
def truthyS (o : Option String) : Bool :=
  match o with
  | some s => s ≠ ""
  | none => false

/-- Python `a or b` on optional strings: `b` when `a` is falsy. -/
def pyOrOpt (a b : Option String) : Option String :=
  if truthyS a then a else if truthyS b then b else none

/-- Boolean contiguous-sublist test: does `needle` occur inside `hay`? -/
def hasInfix (needle : List Char) : List Char → Bool
  | [] => needle.isEmpty
  | c :: rest => needle.isPrefixOf (c :: rest) || hasInfix needle rest

/-- Python `str.lower()` (ASCII case folding, character by character). -/
def lowerString (s : String) : String :=
  ⟨s.toList.map Char.toLower⟩

/-- Case-insensitive substring test: does `"copilot"` occur in `s.lower()`?
(Python `"copilot" in val.lower()`.) -/
def containsCopilot (s : String) : Bool :=
  hasInfix ("copilot".toList) ((lowerString s).toList)

/-! ## Data model -/

/-- One tag record of a feed entry (`{'term': ..., 'label': ...}`). -/
structure Tag where
  term : Option String := none
  label : Option String := none
deriving DecidableEq, Repr

/-- A feed entry: a sparse record where every field may be absent
(`EntryDict`, plus the `guid`/`entry_id` keys read by `entry_fingerprint`). -/
structure Entry where
  id : Option String := none
  guid : Option String := none
  entry_id : Option String := none
  title : Option String := none
  link : Option String := none
  summary : Option String := none
  tags : Option (List Tag) := none
  category : Option String := none
deriving DecidableEq, Repr

instance : Inhabited Entry := ⟨{}⟩

/-- `entry_fingerprint`: the first truthy of `id`, `guid`, `entry_id`, then
`str(entry.get("link") or entry.get("title") or "")`. -/
def entry_fingerprint (e : Entry) : String :=
  if truthyS e.id then e.id.getD ""
  else if truthyS e.guid then e.guid.getD ""
  else if truthyS e.entry_id then e.entry_id.getD ""
  else if truthyS e.link then e.link.getD ""
  else if truthyS e.title then e.title.getD ""
  else ""

/-- The needle set of `is_copilot_tagged`. -/
def needles : List String := ["copilot", "github copilot"]

/-- The per-field check of `is_copilot_tagged`'s tag loop: exact membership
in `needles` (for truthy `val`) or substring occurrence of `"copilot"`. -/
def tagFieldHit (o : Option String) : Bool :=
  let val := o.getD ""
  (val ≠ "" && needles.contains (lowerString val)) || containsCopilot val

/-- `is_copilot_tagged`: tags (term or label), then `category`, then the
title fallback, all case-insensitive. -/
def is_copilot_tagged (e : Entry) : Bool :=
  let tags := e.tags.getD []
  tags.any (fun t => tagFieldHit t.term || tagFieldHit t.label) ||
  (match e.category with
   | some cat => containsCopilot cat
   | none => false) ||
  containsCopilot (e.title.getD "")

/-! ## Summarizer -/

/-- `basic_summary`: strip markup and whitespace, return unchanged when the
result fits in `max_len`, else truncate to `max_len - 1` (Python slice
semantics), right-strip, and append the ellipsis character. -/
def basic_summary (sh : String → String) (e : Entry) (max_len : Int := 420) : String :=
  let raw := e.summary.getD ""
  let clean := pyStrip (sh raw)
  if (clean.length : Int) ≤ max_len then clean
  else pyRStrip (pySliceTo clean (max_len - 1)) ++ "…"

/-- `_clean_title`: strip markup and whitespace, collapse internal
whitespace, strip surrounding quotes/spaces, remove the trailing
punctuation/separator run, and enforce the length cap. -/
def clean_title (sh : String → String) (raw : String) (max_len : Nat := 90) : String :=
  let s := pyStrip (sh raw)
  let s := ⟨collapseWs s.toList⟩
  let s := stripQuotesSpaces s
  let s := ⟨rdropWhileP isTrailingPunct s.toList⟩
  if s.length > max_len then pyRStrip ⟨s.toList.take max_len⟩ else s

/-- `github_llm_bulleted_summary` / `openai_llm_bulleted_summary`: `None`
when the credential is falsy; otherwise the whole guarded network
interaction (request, response parsing, line capping, exception handling) is
abstracted as the oracle `svc`, which never raises and yields `None` on any
failure. -/
def llm_bulleted_summary (svc : Entry → Option String) (key : Option String)
    (e : Entry) : Option String :=
  if truthyS key then svc e else none

/-- `github_llm_thread_title` / `openai_llm_thread_title`, with the same
network abstraction as `llm_bulleted_summary`. -/
def llm_thread_title (svc : Entry → Option String) (key : Option String)
    (e : Entry) : Option String :=
  if truthyS key then svc e else none

/-- `summarize_entry`: GitHub Models result if truthy, else OpenAI result if
truthy, else the deterministic `basic_summary` fallback. -/
def summarize_entry (sh : String → String) (gsvc osvc : Entry → Option String)
    (gh_token oa_key : Option String) (e : Entry) : String :=
  let s₁ := llm_bulleted_summary gsvc gh_token e
  if truthyS s₁ then s₁.getD ""
  else
    let s₂ := llm_bulleted_summary osvc oa_key e
    if truthyS s₂ then s₂.getD ""
    else basic_summary sh e

/-- `re.split(r"[.!?]\s|\n", bs, maxsplit=1)[0]`: the prefix before the
first newline or sentence-ending punctuation followed by whitespace. -/
def splitFirstPhrase : List Char → List Char
  | [] => []
  | c :: rest =>
      if c = '\n' then []
      else
        match rest with
        | [] => [c]
        | d :: _ =>
            if (c = '.' || c = '!' || c = '?') && pyIsSpace d then []
            else c :: splitFirstPhrase rest

/-- Python `str.split()` with no arguments: whitespace-separated words,
empties discarded. -/
def pyWordsAux (acc : List Char) : List Char → List (List Char)
  | [] => if acc.isEmpty then [] else [acc.reverse]
  | c :: rest =>
      if pyIsSpace c then
        if acc.isEmpty then pyWordsAux [] rest
        else acc.reverse :: pyWordsAux [] rest
      else pyWordsAux (c :: acc) rest

def pyWords (s : String) : List String :=
  (pyWordsAux [] s.toList).map (fun l => ⟨l⟩)

/-- The last-resort phrase of `derive_thread_name`: first sentence of the
90-capped basic summary, cut to at most 10 words. -/
def summary_phrase (sh : String → String) (e : Entry) : String :=
  let bs := basic_summary sh e 90
  let first : String := ⟨splitFirstPhrase bs.toList⟩
  let words := pyWords first
  if words.length > 10 then " ".intercalate (words.take 10) else first

/-- `derive_thread_name`: GitHub Models title, else OpenAI title, else the
cleaned entry title, else a phrase derived from the basic summary (or the
constant default when that phrase is empty). -/
def derive_thread_name (sh : String → String) (gtsvc otsvc : Entry → Option String)
    (gh_token oa_key : Option String) (e : Entry) : String :=
  let t₁ := llm_thread_title gtsvc gh_token e
  if truthyS t₁ then t₁.getD ""
  else
    let t₂ := llm_thread_title otsvc oa_key e
    if truthyS t₂ then t₂.getD ""
    else
      let raw := pyStrip (e.title.getD "")
      if raw ≠ "" then clean_title sh raw
      else
        let first := summary_phrase sh e
        clean_title sh (if first ≠ "" then first else "GitHub Copilot Changelog")

/-! ## Seen-Set store -/

/-- Observable content of the state file: absent, undecodable JSON, a JSON
array of strings, or some other JSON document. -/
inductive StateFile where
  | missing : StateFile
  | corrupt : StateFile
  | arr : List String → StateFile
  | other : StateFile
deriving DecidableEq, Repr

/-- The raw string list of the state file's JSON array (empty for a
missing, corrupt or non-array file). -/
def load_list : StateFile → List String
  | StateFile.arr xs => xs
  | _ => []

/-- `load_state`: the set of strings of a JSON array; a missing, corrupt or
non-array file yields the empty set. -/
def load_state (f : StateFile) : Finset String :=
  (load_list f).toFinset

/-- Code-point lexicographic `≤` on character lists (Python's string
order). -/
def lexLeChars : List Char → List Char → Bool
  | [], _ => true
  | _ :: _, [] => false
  | a :: as, b :: bs => if a = b then lexLeChars as bs else decide (a < b)

/-- Code-point lexicographic `≤` on strings. -/
def strLe (a b : String) : Bool := lexLeChars a.toList b.toList

/-- Ordered insertion for ascending insertion sort on strings. -/
def insertStr (x : String) : List String → List String
  | [] => [x]
  | y :: ys => if strLe x y then x :: y :: ys else y :: insertStr x ys

/-- Ascending insertion sort, modelling Python's `sorted`. -/
def sortStrings (l : List String) : List String :=
  l.foldr insertStr []

/-- `save_state`: re-load the file, union with the new identifiers, and
write the sorted merged array (`json.dump(sorted(existing ∪ set(ids)))`,
modelled as the sorted deduplicated merge). -/
def save_state (ids : List String) (f : StateFile) : StateFile :=
  StateFile.arr (sortStrings ((load_list f ++ ids).dedup))

/-! ## Configuration and the Notifier -/

/-- The environment-derived module configuration read at import time. -/
structure Config where
  webhook_url : Option String
  thread_id : Option String
  thread_name : Option String
  forum_mode : String
  force_post : Bool
  dry_run : Bool
deriving DecidableEq, Repr

/-- `DISCORD_FORUM_MODE = os.environ.get("DISCORD_FORUM_MODE", "per-item").strip().lower()`. -/
def forum_mode_of (env : Option String) : String :=
  lowerString (pyStrip (env.getD "per-item"))

/-- A rendered notification card (`Embed`). -/
structure Embed where
  title : String
  url : String
  description : String
  timestamp : String
deriving DecidableEq, Repr

/-- Trace record of one `post_to_discord` invocation: the fingerprints and
embeds it covered, the `thread_name` field of the payload (when present),
whether an actual HTTP request was issued, and the returned success flag. -/
structure PostCall where
  ids : List String
  embeds : List Embed
  payload_thread : Option String
  http : Bool
  success : Bool
deriving DecidableEq, Repr

/-- Mutable run state: the HTTP-oracle cursor, the trace of post attempts,
and the state file. -/
structure RunSt where
  k : Nat
  calls : List PostCall
  file : StateFile
deriving DecidableEq, Repr

/-- The `thread_name` field put into the webhook payload:
`chosen = thread_name or (DISCORD_THREAD_NAME or None)`, attached only when
truthy and no explicit `DISCORD_THREAD_ID` is configured. -/
def payload_thread_of (cfg : Config) (thread_name : Option String) : Option String :=
  let chosen := pyOrOpt thread_name cfg.thread_name
  if truthyS chosen && !truthyS cfg.thread_id then chosen else none

/-- `post_to_discord`: missing webhook URL ⇒ failure without a request;
empty embed list ⇒ success without a request; dry-run ⇒ success without a
request; otherwise one HTTP POST whose 2xx-success is given by the oracle
`w` at the current cursor.  The fingerprints `ids` of the posted entries are
threaded through for the trace only. -/
def post_to_discord (cfg : Config) (w : Nat → Bool) (ids : List String)
    (embeds : List Embed) (thread_name : Option String := none) (st : RunSt) :
    (Bool × Option Int) × RunSt :=
  if !truthyS cfg.webhook_url then
    ((false, none), { st with calls := st.calls ++ [⟨ids, embeds, none, false, false⟩] })
  else if embeds.isEmpty then
    ((true, none), { st with calls := st.calls ++ [⟨ids, embeds, none, false, true⟩] })
  else
    let pt := payload_thread_of cfg thread_name
    if cfg.dry_run then
      ((true, none), { st with calls := st.calls ++ [⟨ids, embeds, pt, false, true⟩] })
    else
      let ok := w st.k
      ((ok, none),
       { st with k := st.k + 1, calls := st.calls ++ [⟨ids, embeds, pt, true, ok⟩] })

/-! ## Delivery pipeline (`main`) -/

def MAX_ITEMS_PER_RUN : Nat := 5

/-- The filter stage of `main`: keep entries that are Copilot-tagged, have a
non-empty fingerprint, and (unless force-posting) are not already seen. -/
def filteredEntries (cfg : Config) (entries : List Entry) (file0 : StateFile) :
    List Entry :=
  let seen := load_state file0
  entries.filter (fun e =>
    is_copilot_tagged e && entry_fingerprint e ≠ "" &&
      (cfg.force_post || !(entry_fingerprint e ∈ seen)))

/-- Stable insertion of `x` into `l`, after every element `y` with
`key y ≤ key x`. -/
def stableInsert (key : Entry → Int) (x : Entry) : List Entry → List Entry
  | [] => [x]
  | y :: ys => if key y ≤ key x then y :: stableInsert key x ys else x :: y :: ys

/-- Stable ascending sort by `key` (the semantics of Python's `list.sort`). -/
def stableSort (key : Entry → Int) (l : List Entry) : List Entry :=
  l.foldl (fun acc x => stableInsert key x acc) []

/-- The entries actually sent: filtered, sorted oldest-first by effective
timestamp, and capped at `MAX_ITEMS_PER_RUN`. -/
def survivors (cfg : Config) (timeOf : Entry → Int) (entries : List Entry)
    (file0 : StateFile) : List Entry :=
  (stableSort timeOf (filteredEntries cfg entries file0)).take MAX_ITEMS_PER_RUN

/-- The per-item posting loop shared by the `per-item` branch and the `auto`
fallback (the two loops in the source differ only in the `thread_name`
argument, supplied here as `titleOf`).  Returns the `all_ok` flag, the
`posted_ids` list, and the updated run state. -/
def per_item_loop (cfg : Config) (w : Nat → Bool) (embedOf : Entry → Embed)
    (titleOf : Entry → Option String) : List Entry → RunSt →
    Bool × List String × RunSt
  | [], st => (true, [], st)
  | e :: rest, st =>
      let r := post_to_discord cfg w [entry_fingerprint e] [embedOf e] (titleOf e) st
      let res := per_item_loop cfg w embedOf titleOf rest r.2
      (res.1 && r.1.1,
       (if r.1.1 then [entry_fingerprint e] else []) ++ res.2.1,
       res.2.2)

/-- The shared tail of the batch-posting branches of `main` (explicit
thread, `single`, `off`, and the first attempt of `auto`): on success mark
the whole batch seen (unless force-posting) and exit 0, on failure exit
2. -/
def batch_outcome (cfg : Config) (ids : List String)
    (r : (Bool × Option Int) × RunSt) : Nat × RunSt :=
  if r.1.1 then
    (0, if cfg.force_post then r.2 else { r.2 with file := save_state ids r.2.file })
  else (2, r.2)

/-- The shared tail of the per-item branches of `main` (`per-item` mode and
the `auto` fallback): persist the successfully posted identifiers when
there are any (unless force-posting) and exit 0 iff every post
succeeded. -/
def loop_outcome (cfg : Config) (res : Bool × List String × RunSt) : Nat × RunSt :=
  let st' := if !res.2.1.isEmpty && !cfg.force_post then
      { res.2.2 with file := save_state res.2.1 res.2.2.file }
    else res.2.2
  ((if res.1 then 0 else 2), st')

/-- `main`.  External effects are parameters: `w` is the HTTP oracle,
`embedOf` abstracts `to_discord_embed` (rendering, which may call the
generation services), `threadNameOf` abstracts `derive_thread_name`,
`timeOf` abstracts `entry_datetime_utc`, `entries` is the parsed feed and
`file0` the state file at start.  Returns the exit code and final run
state. -/
def mainRun (cfg : Config) (w : Nat → Bool) (embedOf : Entry → Embed)
    (threadNameOf : Entry → String) (timeOf : Entry → Int)
    (entries : List Entry) (file0 : StateFile) : Nat × RunSt :=
  let st0 : RunSt := ⟨0, [], file0⟩
  if !truthyS cfg.webhook_url then (1, st0)
  else if entries.isEmpty then (0, st0)
  else if (filteredEntries cfg entries file0).isEmpty then (0, st0)
  else
    let to_send := survivors cfg timeOf entries file0
    let ids := to_send.map entry_fingerprint
    let embeds := to_send.map embedOf
    let explicit_thread := truthyS cfg.thread_id || truthyS cfg.thread_name
    if explicit_thread then
      batch_outcome cfg ids (post_to_discord cfg w ids embeds none st0)
    else if cfg.forum_mode = "per-item" then
      loop_outcome cfg
        (per_item_loop cfg w embedOf (fun e => some (threadNameOf e)) to_send st0)
    else if cfg.forum_mode = "single" then
      batch_outcome cfg ids (post_to_discord cfg w ids embeds
        (some (threadNameOf (to_send.headD default))) st0)
    else if cfg.forum_mode = "off" then
      batch_outcome cfg ids (post_to_discord cfg w ids embeds none st0)
    else
      let r := post_to_discord cfg w ids embeds
        (some (threadNameOf (to_send.headD default))) st0
      if r.1.1 then batch_outcome cfg ids r
      else loop_outcome cfg (per_item_loop cfg w embedOf (fun _ => none) to_send r.2)

/-! ## Derived descriptions of the per-item loop

Closed-form descriptions of what `per_item_loop` produces, used to state the
posting-mode theorems.  `k` is the HTTP-oracle cursor at loop entry. -/

/-- The loop's `all_ok` flag: every post from cursor `k` on succeeded. -/
def allOkFrom (w : Nat → Bool) (k : Nat) : List Entry → Bool
  | [] => true
  | _ :: rest => allOkFrom w (k + 1) rest && w k

/-- The loop's `posted_ids`: fingerprints of the successfully posted
entries, in posting order. -/
def postedFrom (w : Nat → Bool) (k : Nat) : List Entry → List String
  | [] => []
  | e :: rest => (if w k then [entry_fingerprint e] else []) ++ postedFrom w (k + 1) rest

/-- The trace of HTTP posts the loop makes in a non-dry run. -/
def itemCallsFrom (cfg : Config) (w : Nat → Bool) (embedOf : Entry → Embed)
    (titleOf : Entry → Option String) (k : Nat) : List Entry → List PostCall
  | [] => []
  | e :: rest =>
      ⟨[entry_fingerprint e], [embedOf e], payload_thread_of cfg (titleOf e), true, w k⟩ ::
        itemCallsFrom cfg w embedOf titleOf (k + 1) rest

/-- The trace of post attempts the loop makes in a dry run (no HTTP, all
successful). -/
def dryCallsFrom (cfg : Config) (embedOf : Entry → Embed)
    (titleOf : Entry → Option String) : List Entry → List PostCall
  | [] => []
  | e :: rest =>
      ⟨[entry_fingerprint e], [embedOf e], payload_thread_of cfg (titleOf e), false, true⟩ ::
        dryCallsFrom cfg embedOf titleOf rest

/-! ## Concrete fixtures for counterexamples and witnesses -/

/-- A Copilot-tagged entry whose fingerprint is its link `"L1"`. -/
def ceEntry1 : Entry := { title := some "Copilot one", link := some "L1" }

/-- A Copilot-tagged entry whose fingerprint is its link `"L2"`. -/
def ceEntry2 : Entry := { title := some "Copilot two", link := some "L2" }

/-- A concrete rendering function standing in for `to_discord_embed`. -/
def ceEmbedOf : Entry → Embed := fun e => ⟨e.title.getD "", e.link.getD "", "", ""⟩

/-- A concrete title deriver standing in for `derive_thread_name`. -/
def ceTitleOf : Entry → String := fun _ => "T"

/-- A constant effective timestamp (the stable sort then keeps feed order). -/
def ceTimeOf : Entry → Int := fun _ => 0

/-- Configuration with the posting mode left unset (so it takes the coded
default), a configured webhook, and no explicit thread. -/
def cfgDefaultMode : Config :=
  ⟨some "https://example/webhook", none, none, forum_mode_of none, false, false⟩

/-- Configuration with the posting mode explicitly `auto`. -/
def cfgAutoMode : Config :=
  ⟨some "https://example/webhook", none, none, "auto", false, false⟩

/-- Dry-run configuration with a missing webhook URL. -/
def cfgNoHookDry : Config := ⟨none, none, none, "per-item", false, true⟩

/-- Dry-run configuration with a configured webhook. -/
def cfgDryRun : Config :=
  ⟨some "https://example/webhook", none, none, "per-item", false, true⟩

/-- Force-post configuration (`off` mode, webhook configured). -/
def cfgForce : Config :=
  ⟨some "https://example/webhook", none, none, "off", true, false⟩

/-- HTTP oracle: the first post fails, every later one succeeds. -/
def wFailFirst : Nat → Bool := fun k => decide (k ≠ 0)

/-- HTTP oracle: every post succeeds. -/
def wAllOk : Nat → Bool := fun _ => true

/-- An entry whose raw summary is non-empty but all whitespace. -/
def entrySpaceSummary : Entry := { summary := some " " }

/-- An entry whose title is all punctuation and whose summary is `"x"`. -/
def entryBangTitle : Entry := { title := some "!!", summary := some "x" }

/-- An entry with the two-character summary `"ab"`. -/
def entryAB : Entry := { summary := some "ab" }

/-- A well-behaved entry with a clean title and summary. -/
def entryW : Entry :=
  { title := some "Copilot: Improved inline completions",
    summary := some "Inline completion quality enhancements." }

/-! ## Helper lemmas -/

theorem length_dropWhileP_le (p : Char → Bool) (l : List Char) :
    (l.dropWhile p).length ≤ l.length := by
  induction l with
  | nil => simp [List.dropWhile]
  | cons c rest ih =>
      rw [List.dropWhile]
      cases p c
      · simp
      · simp only []
        have : (List.dropWhile p rest).length ≤ rest.length := ih
        simp only [List.length_cons]
        omega

theorem length_rdropWhileP_le (p : Char → Bool) (l : List Char) :
    (rdropWhileP p l).length ≤ l.length := by
  unfold rdropWhileP
  calc ((l.reverse.dropWhile p).reverse).length
      = (l.reverse.dropWhile p).length := by rw [List.length_reverse]
    _ ≤ l.reverse.length := length_dropWhileP_le p l.reverse
    _ = l.length := List.length_reverse l

theorem mk_length (l : List Char) : (String.mk l).length = l.length := rfl

theorem pyRStrip_length_le (s : String) : (pyRStrip s).length ≤ s.length := by
  unfold pyRStrip
  rw [mk_length]
  exact length_rdropWhileP_le pyIsSpace s.toList

theorem append_ellipsis_ne_empty (s : String) : s ++ "…" ≠ "" := by
  intro h
  have h2 : (s ++ "…").length = ("" : String).length := congrArg String.length h
  rw [String.length_append] at h2
  have h3 : ("…" : String).length = 1 := rfl
  have h4 : ("" : String).length = 0 := rfl
  omega

theorem insertStr_perm (y : String) (l : List String) :
    List.Perm (insertStr y l) (y :: l) := by
  induction l with
  | nil => exact List.Perm.refl _
  | cons z zs ih =>
      unfold insertStr
      by_cases h : strLe y z = true
      · simp [h]
      · simp only [Bool.not_eq_true] at h
        simp only [h, Bool.false_eq_true, if_false]
        exact (List.Perm.cons z ih).trans (List.Perm.swap y z zs)

theorem sortStrings_perm (l : List String) : List.Perm (sortStrings l) l := by
  induction l with
  | nil => exact List.Perm.refl _
  | cons z zs ih =>
      unfold sortStrings at ih ⊢
      simp only [List.foldr_cons]
      exact (insertStr_perm _ _).trans (List.Perm.cons z ih)

theorem mem_load_save (x : String) (ids : List String) (f : StateFile) :
    x ∈ load_state (save_state ids f) ↔ x ∈ load_state f ∨ x ∈ ids := by
  unfold load_state save_state
  simp only [load_list, List.mem_toFinset]
  rw [(sortStrings_perm _).mem_iff]
  simp [List.mem_dedup, List.mem_append]

theorem tagFieldHit_eq (o : Option String) :
    tagFieldHit o = containsCopilot (o.getD "") := by
  unfold tagFieldHit
  dsimp only
  cases hx : ((o.getD "" ≠ "" : Bool) && needles.contains (lowerString (o.getD ""))) with
  | false => rw [Bool.false_or]
  | true =>
      rw [Bool.true_or]
      rw [Bool.and_eq_true] at hx
      have hmem : lowerString (o.getD "") = "copilot" ∨
          lowerString (o.getD "") = "github copilot" := by
        have h2 := hx.2
        simp [needles, List.contains] at h2
        tauto
      symm
      unfold containsCopilot
      rcases hmem with h | h <;> rw [h] <;> decide

theorem basic_summary_ne (sh : String → String) (e : Entry)
    (hs : pyStrip (sh (e.summary.getD "")) ≠ "") : basic_summary sh e ≠ "" := by
  unfold basic_summary
  dsimp only
  by_cases h : ((pyStrip (sh (e.summary.getD ""))).length : Int) ≤ 420
  · rw [if_pos h]; exact hs
  · rw [if_neg h]; exact append_ellipsis_ne_empty _

/-! ## Claim theorems -/

/-- C5: the classifier returns relevant if and only if the keyword
`"copilot"` occurs, case-insensitively as a substring, in the `term` or
`label` field of some tag, in the category string, or in the title; an
entry with none of these occurrences is classified not-relevant. -/
theorem c5_classifier_iff (e : Entry) :
    is_copilot_tagged e = true ↔
      ((∃ t ∈ e.tags.getD [], containsCopilot (t.term.getD "") = true ∨
          containsCopilot (t.label.getD "") = true) ∨
       containsCopilot (e.category.getD "") = true ∨
       containsCopilot (e.title.getD "") = true) := by
  have hcat : (match e.category with
      | some cat => containsCopilot cat
      | none => false) = containsCopilot (e.category.getD "") := by
    cases e.category with
    | none => decide
    | some c => rfl
  unfold is_copilot_tagged
  rw [hcat]
  simp only [Bool.or_eq_true, List.any_eq_true, tagFieldHit_eq, Bool.or_eq_true]
  rw [or_assoc]

/-- C4: saving `{"a","b"}` to a fresh state file and loading returns exactly
`{"a","b"}`; a subsequent save of `{"c"}` then a load returns
`{"a","b","c"}`; in general `save_state` writes the union of the file's
identifiers and the new ones, so a save never removes an identifier present
in the file at save time. -/
theorem c4_seen_set_roundtrip :
    load_state (save_state ["a", "b"] StateFile.missing) = ({"a", "b"} : Finset String) ∧
    load_state (save_state ["c"] (save_state ["a", "b"] StateFile.missing)) =
      ({"a", "b", "c"} : Finset String) ∧
    ∀ (ids : List String) (f : StateFile),
      load_state f ⊆ load_state (save_state ids f) :=
  ⟨by decide, by decide,
   fun ids f _ hx => (mem_load_save _ ids f).mpr (Or.inl hx)⟩

/-- C7: title cleanup is deterministic and, on the input string
`"  'Copilot: New Feature!!'  "`, returns exactly `"Copilot: New Feature"`
(the HTML-stripper is the identity on this markup-free input). -/
theorem c7_clean_title_example :
    clean_title (fun s => s) "  'Copilot: New Feature!!'  " = "Copilot: New Feature" := by
  decide

/-- C6 counterexample: the claim promises the output length never exceeds
the requested cap for every cap, but with cap 0 and the two-character
stripped summary `"ab"` the code computes `clean[:-1].rstrip() + "…"`
(Python's negative slice keeps the first character), returning `"a…"` of
length 2 > 0. -/
theorem c6_counterexample :
    basic_summary (fun s => s) entryAB 0 = "a…" ∧
    ¬ (((basic_summary (fun s => s) entryAB 0).length : Int) ≤ 0) :=
  ⟨by decide, by decide⟩

/-- C6 amended: for every cap of at least 1, `basic_summary` returns a
string no longer than the cap; when the stripped input exceeds the cap the
result ends with the ellipsis marker; when the stripped input fits it is
returned unchanged apart from markup and surrounding-whitespace
stripping. -/
theorem c6_cap_respected (sh : String → String) (e : Entry) (cap : Int) (hcap : 1 ≤ cap) :
    ((basic_summary sh e cap).length : Int) ≤ cap ∧
    (cap < ((pyStrip (sh (e.summary.getD ""))).length : Int) →
      ∃ p, basic_summary sh e cap = p ++ "…") ∧
    (((pyStrip (sh (e.summary.getD ""))).length : Int) ≤ cap →
      basic_summary sh e cap = pyStrip (sh (e.summary.getD ""))) := by
  unfold basic_summary
  dsimp only
  set clean := pyStrip (sh (e.summary.getD "")) with hclean
  by_cases h : (clean.length : Int) ≤ cap
  · rw [if_pos h]
    exact ⟨h, fun hlt => absurd h (by omega), fun _ => rfl⟩
  · rw [if_neg h]
    refine ⟨?_, fun _ => ⟨_, rfl⟩, fun hle => absurd hle h⟩
    rw [String.length_append]
    have h1 : (pyRStrip (pySliceTo clean (cap - 1))).length ≤
        (pySliceTo clean (cap - 1)).length := pyRStrip_length_le _
    have h2 : (pySliceTo clean (cap - 1)).length ≤ (cap - 1).toNat := by
      unfold pySliceTo
      rw [if_neg (by omega)]
      rw [mk_length]
      exact List.length_take_le _ _
    have h3 : ("…" : String).length = 1 := rfl
    have h4 : (((cap - 1).toNat : Nat) : Int) = cap - 1 := Int.toNat_of_nonneg (by omega)
    omega

/-- C6 witness: at cap 420 with summary `"ab"`, the amended theorem applies
and the untruncated input is returned unchanged within the cap. -/
theorem c6_cap_respected_witness :
    ((basic_summary (fun s => s) entryAB 420).length : Int) ≤ 420 ∧
    basic_summary (fun s => s) entryAB 420 =
      pyStrip ((fun s => s) (entryAB.summary.getD "")) := by
  have h := c6_cap_respected (fun s => s) entryAB 420 (by decide)
  exact ⟨h.1, h.2.2 (by decide)⟩

/-- C3 counterexample: the claim promises non-empty results for every entry
whose raw summary field is a non-empty string, but a summary of `" "`
(non-empty, all whitespace) makes `summarize_entry` return `""` via the
deterministic fallback, and an all-punctuation title `"!!"` with a
non-empty summary makes `derive_thread_name` return `""` because the title
cleanup strips every character. -/
theorem c3_counterexample :
    (entrySpaceSummary.summary.getD "" ≠ "" ∧
      summarize_entry (fun s => s) (fun _ => none) (fun _ => none) none none
        entrySpaceSummary = "") ∧
    (entryBangTitle.summary.getD "" ≠ "" ∧
      derive_thread_name (fun s => s) (fun _ => none) (fun _ => none) none none
        entryBangTitle = "") :=
  ⟨⟨by decide, by decide⟩, by decide, by decide⟩

/-- C3 amended: with both credentials absent, `summarize_entry` returns the
deterministic `basic_summary` fallback, which is non-empty whenever the
markup- and whitespace-stripped summary is non-empty; `derive_thread_name`
returns the cleaned stripped title when the stripped title is non-empty,
else the cleaned summary-derived phrase (or the cleaned constant default),
so it is non-empty whenever the corresponding cleanup result is
non-empty. -/
theorem c3_fallback_results (sh : String → String)
    (gsvc osvc gtsvc otsvc : Entry → Option String) (e : Entry)
    (hs : pyStrip (sh (e.summary.getD "")) ≠ "") :
    summarize_entry sh gsvc osvc none none e = basic_summary sh e ∧
    summarize_entry sh gsvc osvc none none e ≠ "" ∧
    (pyStrip (e.title.getD "") ≠ "" →
      derive_thread_name sh gtsvc otsvc none none e =
        clean_title sh (pyStrip (e.title.getD ""))) ∧
    (pyStrip (e.title.getD "") = "" →
      derive_thread_name sh gtsvc otsvc none none e =
        clean_title sh (if summary_phrase sh e ≠ "" then summary_phrase sh e
          else "GitHub Copilot Changelog")) := by
  have hsum : summarize_entry sh gsvc osvc none none e = basic_summary sh e := by
    unfold summarize_entry llm_bulleted_summary
    simp [truthyS]
  refine ⟨hsum, hsum ▸ basic_summary_ne sh e hs, ?_, ?_⟩
  · intro hT
    unfold derive_thread_name llm_thread_title
    simp only [truthyS]
    rw [if_neg (by simp), if_neg (by simp), if_pos hT]
  · intro hT
    unfold derive_thread_name llm_thread_title
    simp only [truthyS]
    rw [if_neg (by simp), if_neg (by simp), if_neg (by simp [hT])]

/-- C3 witness: on a well-formed entry with no credentials, both the
summary and the derived thread name are non-empty. -/
theorem c3_fallback_results_witness :
    summarize_entry (fun s => s) (fun _ => none) (fun _ => none) none none entryW ≠ "" ∧
    derive_thread_name (fun s => s) (fun _ => none) (fun _ => none) none none entryW ≠ "" := by
  have h := c3_fallback_results (fun s => s) (fun _ => none) (fun _ => none)
    (fun _ => none) (fun _ => none) entryW (by decide)
  refine ⟨h.2.1, ?_⟩
  rw [h.2.2.1 (by decide)]
  decide

/-! ## Notifier and loop lemmas -/

theorem post_live (cfg : Config) (w : Nat → Bool) (ids : List String)
    (embeds : List Embed) (tn : Option String) (st : RunSt)
    (hw : truthyS cfg.webhook_url = true) (hne : embeds.isEmpty = false)
    (hdry : cfg.dry_run = false) :
    post_to_discord cfg w ids embeds tn st =
      ((w st.k, none),
       ⟨st.k + 1,
        st.calls ++ [⟨ids, embeds, payload_thread_of cfg tn, true, w st.k⟩],
        st.file⟩) := by
  unfold post_to_discord
  rw [hw]
  simp only [Bool.not_true, Bool.false_eq_true, if_false, hne, hdry]

theorem post_dry (cfg : Config) (w : Nat → Bool) (ids : List String)
    (embeds : List Embed) (tn : Option String) (st : RunSt)
    (hw : truthyS cfg.webhook_url = true) (hne : embeds.isEmpty = false)
    (hdry : cfg.dry_run = true) :
    post_to_discord cfg w ids embeds tn st =
      ((true, none),
       ⟨st.k,
        st.calls ++ [⟨ids, embeds, payload_thread_of cfg tn, false, true⟩],
        st.file⟩) := by
  unfold post_to_discord
  rw [hw]
  simp only [Bool.not_true, Bool.false_eq_true, if_false, hne, hdry]
  simp

theorem post_file (cfg : Config) (w : Nat → Bool) (ids : List String)
    (embeds : List Embed) (tn : Option String) (st : RunSt) :
    (post_to_discord cfg w ids embeds tn st).2.file = st.file := by
  unfold post_to_discord
  split
  · rfl
  · split
    · rfl
    · dsimp only
      split
      · rfl
      · rfl

theorem post_calls_shape (cfg : Config) (w : Nat → Bool) (ids : List String)
    (embeds : List Embed) (tn : Option String) (st : RunSt) :
    ∃ c : PostCall, (post_to_discord cfg w ids embeds tn st).2.calls = st.calls ++ [c] ∧
      c.ids = ids ∧ c.success = (post_to_discord cfg w ids embeds tn st).1.1 := by
  unfold post_to_discord
  split
  · exact ⟨_, rfl, rfl, rfl⟩
  · split
    · exact ⟨_, rfl, rfl, rfl⟩
    · dsimp only
      split
      · exact ⟨_, rfl, rfl, rfl⟩
      · exact ⟨_, rfl, rfl, rfl⟩

theorem per_item_loop_sound (cfg : Config) (w : Nat → Bool) (eo : Entry → Embed)
    (titleOf : Entry → Option String) (l : List Entry) (st : RunSt) :
    (per_item_loop cfg w eo titleOf l st).2.2.file = st.file ∧
    (∀ c ∈ st.calls, c ∈ (per_item_loop cfg w eo titleOf l st).2.2.calls) ∧
    (∀ x ∈ (per_item_loop cfg w eo titleOf l st).2.1,
      ∃ c ∈ (per_item_loop cfg w eo titleOf l st).2.2.calls,
        c.success = true ∧ x ∈ c.ids) := by
  induction l generalizing st with
  | nil =>
      refine ⟨rfl, fun c hc => hc, fun x hx => absurd hx (by simp [per_item_loop])⟩
  | cons e rest ih =>
      unfold per_item_loop
      dsimp only
      obtain ⟨c, hc, hcids, hcsucc⟩ :=
        post_calls_shape cfg w [entry_fingerprint e] [eo e] (titleOf e) st
      set r := post_to_discord cfg w [entry_fingerprint e] [eo e] (titleOf e) st with hr
      obtain ⟨ihfile, ihmono, ihpost⟩ := ih r.2
      refine ⟨?_, ?_, ?_⟩
      · rw [ihfile, post_file]
      · intro d hd
        exact ihmono d (by rw [hc]; exact List.mem_append_left _ hd)
      · intro x hx
        rcases List.mem_append.mp hx with hx1 | hx2
        · by_cases hok : r.1.1 = true
          · refine ⟨c, ihmono c (by rw [hc]; exact List.mem_append_right _ (by simp)), ?_, ?_⟩
            · rw [hcsucc, hok]
            · rw [hcids]
              simp only [if_pos hok] at hx1
              simpa using hx1
          · simp only [Bool.not_eq_true] at hok
            simp [hok] at hx1
        · exact ihpost x hx2

theorem allOkFrom_cons (w : Nat → Bool) (k : Nat) (e : Entry) (rest : List Entry) :
    allOkFrom w k (e :: rest) = (allOkFrom w (k + 1) rest && w k) := rfl

theorem postedFrom_cons (w : Nat → Bool) (k : Nat) (e : Entry) (rest : List Entry) :
    postedFrom w k (e :: rest) =
      (if w k then [entry_fingerprint e] else []) ++ postedFrom w (k + 1) rest := rfl

theorem itemCallsFrom_cons (cfg : Config) (w : Nat → Bool) (eo : Entry → Embed)
    (titleOf : Entry → Option String) (k : Nat) (e : Entry) (rest : List Entry) :
    itemCallsFrom cfg w eo titleOf k (e :: rest) =
      ⟨[entry_fingerprint e], [eo e], payload_thread_of cfg (titleOf e), true, w k⟩ ::
        itemCallsFrom cfg w eo titleOf (k + 1) rest := rfl

theorem dryCallsFrom_cons (cfg : Config) (eo : Entry → Embed)
    (titleOf : Entry → Option String) (e : Entry) (rest : List Entry) :
    dryCallsFrom cfg eo titleOf (e :: rest) =
      ⟨[entry_fingerprint e], [eo e], payload_thread_of cfg (titleOf e), false, true⟩ ::
        dryCallsFrom cfg eo titleOf rest := rfl

theorem per_item_loop_char (cfg : Config) (w : Nat → Bool) (eo : Entry → Embed)
    (titleOf : Entry → Option String) (l : List Entry) (st : RunSt)
    (hw : truthyS cfg.webhook_url = true) (hdry : cfg.dry_run = false) :
    per_item_loop cfg w eo titleOf l st =
      (allOkFrom w st.k l, postedFrom w st.k l,
       ⟨st.k + l.length, st.calls ++ itemCallsFrom cfg w eo titleOf st.k l, st.file⟩) := by
  induction l generalizing st with
  | nil =>
      simp [per_item_loop, allOkFrom, postedFrom, itemCallsFrom]
  | cons e rest ih =>
      unfold per_item_loop
      dsimp only
      rw [post_live cfg w [entry_fingerprint e] [eo e] (titleOf e) st hw rfl hdry]
      rw [ih]
      dsimp only
      rw [allOkFrom_cons, postedFrom_cons, itemCallsFrom_cons]
      rw [List.append_assoc]
      simp only [List.singleton_append, List.length_cons]
      refine congrArg₂ Prod.mk rfl (congrArg₂ Prod.mk rfl ?_)
      have hk : st.k + 1 + rest.length = st.k + (rest.length + 1) := by omega
      rw [hk]

theorem per_item_loop_dry (cfg : Config) (w : Nat → Bool) (eo : Entry → Embed)
    (titleOf : Entry → Option String) (l : List Entry) (st : RunSt)
    (hw : truthyS cfg.webhook_url = true) (hdry : cfg.dry_run = true) :
    per_item_loop cfg w eo titleOf l st =
      (true, l.map entry_fingerprint,
       ⟨st.k, st.calls ++ dryCallsFrom cfg eo titleOf l, st.file⟩) := by
  induction l generalizing st with
  | nil =>
      simp [per_item_loop, dryCallsFrom]
  | cons e rest ih =>
      unfold per_item_loop
      dsimp only
      rw [post_dry cfg w [entry_fingerprint e] [eo e] (titleOf e) st hw rfl hdry]
      rw [ih]
      dsimp only
      rw [dryCallsFrom_cons]
      rw [List.append_assoc]
      simp [List.singleton_append]

/-! ## Main-branch reduction lemmas -/

section MainBranches

variable (cfg : Config) (w : Nat → Bool) (eo : Entry → Embed) (tn : Entry → String)
variable (timeOf : Entry → Int) (entries : List Entry) (file0 : StateFile)

theorem mainRun_nohook (hw : truthyS cfg.webhook_url = false) :
    mainRun cfg w eo tn timeOf entries file0 = (1, ⟨0, [], file0⟩) := by
  unfold mainRun
  simp [hw]

theorem mainRun_noentries (hw : truthyS cfg.webhook_url = true)
    (he : entries.isEmpty = true) :
    mainRun cfg w eo tn timeOf entries file0 = (0, ⟨0, [], file0⟩) := by
  unfold mainRun
  simp [hw, he]

theorem mainRun_nofiltered (hw : truthyS cfg.webhook_url = true)
    (he : entries.isEmpty = false)
    (hf : (filteredEntries cfg entries file0).isEmpty = true) :
    mainRun cfg w eo tn timeOf entries file0 = (0, ⟨0, [], file0⟩) := by
  unfold mainRun
  simp [hw, he, hf]

theorem mainRun_explicit (hw : truthyS cfg.webhook_url = true)
    (he : entries.isEmpty = false)
    (hf : (filteredEntries cfg entries file0).isEmpty = false)
    (hex : (truthyS cfg.thread_id || truthyS cfg.thread_name) = true) :
    mainRun cfg w eo tn timeOf entries file0 =
      batch_outcome cfg ((survivors cfg timeOf entries file0).map entry_fingerprint)
        (post_to_discord cfg w
          ((survivors cfg timeOf entries file0).map entry_fingerprint)
          ((survivors cfg timeOf entries file0).map eo) none ⟨0, [], file0⟩) := by
  unfold mainRun
  simp [hw, he, hf, hex]

theorem mainRun_peritem (hw : truthyS cfg.webhook_url = true)
    (he : entries.isEmpty = false)
    (hf : (filteredEntries cfg entries file0).isEmpty = false)
    (hex : (truthyS cfg.thread_id || truthyS cfg.thread_name) = false)
    (hm : cfg.forum_mode = "per-item") :
    mainRun cfg w eo tn timeOf entries file0 =
      loop_outcome cfg (per_item_loop cfg w eo (fun e => some (tn e))
        (survivors cfg timeOf entries file0) ⟨0, [], file0⟩) := by
  unfold mainRun
  simp [hw, he, hf, hex, hm]

theorem mainRun_single (hw : truthyS cfg.webhook_url = true)
    (he : entries.isEmpty = false)
    (hf : (filteredEntries cfg entries file0).isEmpty = false)
    (hex : (truthyS cfg.thread_id || truthyS cfg.thread_name) = false)
    (hm : cfg.forum_mode = "single") :
    mainRun cfg w eo tn timeOf entries file0 =
      batch_outcome cfg ((survivors cfg timeOf entries file0).map entry_fingerprint)
        (post_to_discord cfg w
          ((survivors cfg timeOf entries file0).map entry_fingerprint)
          ((survivors cfg timeOf entries file0).map eo)
          (some (tn ((survivors cfg timeOf entries file0).headD default)))
          ⟨0, [], file0⟩) := by
  unfold mainRun
  have hm1 : cfg.forum_mode ≠ "per-item" := by rw [hm]; decide
  simp [hw, he, hf, hex, hm, hm1]

theorem mainRun_off (hw : truthyS cfg.webhook_url = true)
    (he : entries.isEmpty = false)
    (hf : (filteredEntries cfg entries file0).isEmpty = false)
    (hex : (truthyS cfg.thread_id || truthyS cfg.thread_name) = false)
    (hm : cfg.forum_mode = "off") :
    mainRun cfg w eo tn timeOf entries file0 =
      batch_outcome cfg ((survivors cfg timeOf entries file0).map entry_fingerprint)
        (post_to_discord cfg w
          ((survivors cfg timeOf entries file0).map entry_fingerprint)
          ((survivors cfg timeOf entries file0).map eo) none ⟨0, [], file0⟩) := by
  unfold mainRun
  have hm1 : cfg.forum_mode ≠ "per-item" := by rw [hm]; decide
  have hm2 : cfg.forum_mode ≠ "single" := by rw [hm]; decide
  simp [hw, he, hf, hex, hm, hm1, hm2]

theorem mainRun_auto (hw : truthyS cfg.webhook_url = true)
    (he : entries.isEmpty = false)
    (hf : (filteredEntries cfg entries file0).isEmpty = false)
    (hex : (truthyS cfg.thread_id || truthyS cfg.thread_name) = false)
    (hm1 : cfg.forum_mode ≠ "per-item") (hm2 : cfg.forum_mode ≠ "single")
    (hm3 : cfg.forum_mode ≠ "off") :
    mainRun cfg w eo tn timeOf entries file0 =
      (let r := post_to_discord cfg w
          ((survivors cfg timeOf entries file0).map entry_fingerprint)
          ((survivors cfg timeOf entries file0).map eo)
          (some (tn ((survivors cfg timeOf entries file0).headD default)))
          ⟨0, [], file0⟩
       if r.1.1 then
         batch_outcome cfg ((survivors cfg timeOf entries file0).map entry_fingerprint) r
       else loop_outcome cfg (per_item_loop cfg w eo (fun _ => none)
         (survivors cfg timeOf entries file0) r.2)) := by
  unfold mainRun
  simp [hw, he, hf, hex, hm1, hm2, hm3]

end MainBranches

/-! ## State-file characterization -/

theorem batch_outcome_file_char (cfg : Config) (w : Nat → Bool) (ids : List String)
    (embeds : List Embed) (tnm : Option String) (file0 : StateFile) :
    (batch_outcome cfg ids (post_to_discord cfg w ids embeds tnm ⟨0, [], file0⟩)).2.file = file0 ∨
    (cfg.force_post = false ∧
     (batch_outcome cfg ids (post_to_discord cfg w ids embeds tnm ⟨0, [], file0⟩)).2.file =
       save_state ids file0 ∧
     ∀ x ∈ ids,
       ∃ c ∈ (batch_outcome cfg ids (post_to_discord cfg w ids embeds tnm ⟨0, [], file0⟩)).2.calls,
         c.success = true ∧ x ∈ c.ids) := by
  obtain ⟨c, hc, hcids, hcsucc⟩ := post_calls_shape cfg w ids embeds tnm ⟨0, [], file0⟩
  have hfile := post_file cfg w ids embeds tnm ⟨0, [], file0⟩
  set r := post_to_discord cfg w ids embeds tnm ⟨0, [], file0⟩ with hr
  unfold batch_outcome
  by_cases hok : r.1.1 = true
  · rw [if_pos hok]
    by_cases hfp : cfg.force_post = true
    · rw [if_pos hfp]
      left
      exact hfile
    · simp only [Bool.not_eq_true] at hfp
      rw [if_neg (by simp [hfp])]
      right
      refine ⟨hfp, by dsimp only; rw [hfile], ?_⟩
      intro x hx
      refine ⟨c, ?_, ?_, ?_⟩
      · dsimp only
        rw [hc]
        simp
      · rw [hcsucc, hok]
      · rw [hcids]; exact hx
  · rw [if_neg hok]
    left
    exact hfile

theorem loop_outcome_file_char (cfg : Config) (w : Nat → Bool) (eo : Entry → Embed)
    (titleOf : Entry → Option String) (l : List Entry) (st : RunSt) :
    (loop_outcome cfg (per_item_loop cfg w eo titleOf l st)).2.file = st.file ∨
    (cfg.force_post = false ∧
     (loop_outcome cfg (per_item_loop cfg w eo titleOf l st)).2.file =
       save_state (per_item_loop cfg w eo titleOf l st).2.1 st.file ∧
     ∀ x ∈ (per_item_loop cfg w eo titleOf l st).2.1,
       ∃ c ∈ (loop_outcome cfg (per_item_loop cfg w eo titleOf l st)).2.calls,
         c.success = true ∧ x ∈ c.ids) := by
  obtain ⟨hfile, hmono, hpost⟩ := per_item_loop_sound cfg w eo titleOf l st
  set res := per_item_loop cfg w eo titleOf l st with hres
  unfold loop_outcome
  dsimp only
  by_cases hcond : (!res.2.1.isEmpty && !cfg.force_post) = true
  · rw [if_pos hcond]
    rw [Bool.and_eq_true, Bool.not_eq_true', Bool.not_eq_true'] at hcond
    right
    refine ⟨hcond.2, by dsimp only; rw [hfile], ?_⟩
    intro x hx
    exact hpost x hx
  · rw [if_neg hcond]
    left
    exact hfile

theorem mainRun_file_char (cfg : Config) (w : Nat → Bool) (eo : Entry → Embed)
    (tn : Entry → String) (timeOf : Entry → Int) (entries : List Entry)
    (file0 : StateFile) :
    (mainRun cfg w eo tn timeOf entries file0).2.file = file0 ∨
    (cfg.force_post = false ∧ ∃ ids : List String,
      (mainRun cfg w eo tn timeOf entries file0).2.file = save_state ids file0 ∧
      ∀ x ∈ ids, ∃ c ∈ (mainRun cfg w eo tn timeOf entries file0).2.calls,
        c.success = true ∧ x ∈ c.ids) := by
  by_cases hw : truthyS cfg.webhook_url = true
  case neg =>
    rw [Bool.not_eq_true] at hw
    rw [mainRun_nohook cfg w eo tn timeOf entries file0 hw]
    left
    rfl
  case pos =>
  by_cases he : entries.isEmpty = true
  case pos =>
    rw [mainRun_noentries cfg w eo tn timeOf entries file0 hw he]
    left
    rfl
  case neg =>
  rw [Bool.not_eq_true] at he
  by_cases hf : (filteredEntries cfg entries file0).isEmpty = true
  case pos =>
    rw [mainRun_nofiltered cfg w eo tn timeOf entries file0 hw he hf]
    left
    rfl
  case neg =>
  rw [Bool.not_eq_true] at hf
  by_cases hex : (truthyS cfg.thread_id || truthyS cfg.thread_name) = true
  case pos =>
    rw [mainRun_explicit cfg w eo tn timeOf entries file0 hw he hf hex]
    rcases batch_outcome_file_char cfg w _ _ none file0 with h | ⟨h1, h2, h3⟩
    · left; exact h
    · right; exact ⟨h1, _, h2, h3⟩
  case neg =>
  rw [Bool.not_eq_true] at hex
  by_cases hm : cfg.forum_mode = "per-item"
  case pos =>
    rw [mainRun_peritem cfg w eo tn timeOf entries file0 hw he hf hex hm]
    rcases loop_outcome_file_char cfg w eo _ _ ⟨0, [], file0⟩ with h | ⟨h1, h2, h3⟩
    · left; exact h
    · right; exact ⟨h1, _, h2, h3⟩
  case neg =>
  by_cases hm2 : cfg.forum_mode = "single"
  case pos =>
    rw [mainRun_single cfg w eo tn timeOf entries file0 hw he hf hex hm2]
    rcases batch_outcome_file_char cfg w _ _ _ file0 with h | ⟨h1, h2, h3⟩
    · left; exact h
    · right; exact ⟨h1, _, h2, h3⟩
  case neg =>
  by_cases hm3 : cfg.forum_mode = "off"
  case pos =>
    rw [mainRun_off cfg w eo tn timeOf entries file0 hw he hf hex hm3]
    rcases batch_outcome_file_char cfg w _ _ none file0 with h | ⟨h1, h2, h3⟩
    · left; exact h
    · right; exact ⟨h1, _, h2, h3⟩
  case neg =>
  rw [mainRun_auto cfg w eo tn timeOf entries file0 hw he hf hex hm hm2 hm3]
  dsimp only
  set r := post_to_discord cfg w
      ((survivors cfg timeOf entries file0).map entry_fingerprint)
      ((survivors cfg timeOf entries file0).map eo)
      (some (tn ((survivors cfg timeOf entries file0).headD default)))
      ⟨0, [], file0⟩ with hrdef
  by_cases hok : r.1.1 = true
  · rw [if_pos hok]
    rcases batch_outcome_file_char cfg w _ _ _ file0 with h | ⟨h1, h2, h3⟩
    · left; exact h
    · right; exact ⟨h1, _, h2, h3⟩
  · rw [if_neg hok]
    have hrfile : r.2.file = file0 := post_file cfg w _ _ _ _
    rcases loop_outcome_file_char cfg w eo (fun _ => none)
        (survivors cfg timeOf entries file0) r.2 with h | ⟨h1, h2, h3⟩
    · left; rw [h, hrfile]
    · right
      refine ⟨h1, _, ?_, h3⟩
      rw [h2, hrfile]

/-- C2 counterexample: the claim says a failed batch leaves the Seen Set
unchanged for that batch's identifiers, but in `auto` mode a failed batched
post is followed by a per-item fallback; when the fallback succeeds the
failed batch's identifier is persisted anyway. -/
theorem c2_counterexample :
    ((mainRun cfgAutoMode wFailFirst ceEmbedOf ceTitleOf ceTimeOf [ceEntry1]
        StateFile.missing).2.calls.head?.map
      (fun c => (c.success, c.ids))) = some (false, ["L1"]) ∧
    "L1" ∈ load_state ((mainRun cfgAutoMode wFailFirst ceEmbedOf ceTitleOf ceTimeOf
        [ceEntry1] StateFile.missing).2.file) ∧
    "L1" ∉ load_state StateFile.missing := by
  refine ⟨by decide, by decide, by decide⟩

/-- C2 amended: an identifier enters the persisted Seen Set only if it was
already there or some post attempt containing that entry's embed returned
success; a failed attempt by itself never marks its identifiers seen (but a
later successful attempt for the same entries — the `auto` fallback — may
still mark them). -/
theorem c2_seen_only_on_success (cfg : Config) (w : Nat → Bool) (eo : Entry → Embed)
    (tn : Entry → String) (timeOf : Entry → Int) (entries : List Entry)
    (file0 : StateFile) (x : String)
    (hx : x ∈ load_state ((mainRun cfg w eo tn timeOf entries file0).2.file)) :
    x ∈ load_state file0 ∨
      ∃ c ∈ (mainRun cfg w eo tn timeOf entries file0).2.calls,
        c.success = true ∧ x ∈ c.ids := by
  rcases mainRun_file_char cfg w eo tn timeOf entries file0 with h | ⟨_, ids, hfile, hsound⟩
  · rw [h] at hx
    left
    exact hx
  · rw [hfile] at hx
    rcases (mem_load_save x ids file0).mp hx with h1 | h2
    · left; exact h1
    · right; exact hsound x h2

/-- C2 witness: in the default run over one unseen entry with an
all-success network, the persisted identifier `"L1"` is covered by a
successful post attempt. -/
theorem c2_seen_only_on_success_witness :
    "L1" ∈ load_state StateFile.missing ∨
      ∃ c ∈ (mainRun cfgDefaultMode wAllOk ceEmbedOf ceTitleOf ceTimeOf [ceEntry1]
          StateFile.missing).2.calls,
        c.success = true ∧ "L1" ∈ c.ids :=
  c2_seen_only_on_success cfgDefaultMode wAllOk ceEmbedOf ceTitleOf ceTimeOf [ceEntry1]
    StateFile.missing "L1" (by decide)

/-- C10: when the force-repost flag is set, no branch of `main` saves state,
so the seen-state file is left completely unchanged even when every post
succeeds, and the dedup membership check is bypassed (the filter keeps
every tagged entry with a non-empty fingerprint, seen or not). -/
theorem c10_force_post (cfg : Config) (w : Nat → Bool) (eo : Entry → Embed)
    (tn : Entry → String) (timeOf : Entry → Int) (entries : List Entry)
    (file0 : StateFile) (hforce : cfg.force_post = true) :
    (mainRun cfg w eo tn timeOf entries file0).2.file = file0 ∧
    filteredEntries cfg entries file0 =
      entries.filter (fun e => is_copilot_tagged e && entry_fingerprint e ≠ "") := by
  constructor
  · rcases mainRun_file_char cfg w eo tn timeOf entries file0 with h | ⟨hfp, _⟩
    · exact h
    · rw [hforce] at hfp
      exact absurd hfp (by simp)
  · unfold filteredEntries
    dsimp only
    simp [hforce]

/-- C10 witness: a force-post run over an already-seen entry with an
all-success network leaves the state file exactly as it was. -/
theorem c10_force_post_witness :
    (mainRun cfgForce wAllOk ceEmbedOf ceTitleOf ceTimeOf [ceEntry1]
      (StateFile.arr ["L1"])).2.file = StateFile.arr ["L1"] :=
  (c10_force_post cfgForce wAllOk ceEmbedOf ceTitleOf ceTimeOf [ceEntry1]
    (StateFile.arr ["L1"]) rfl).1

/-! ## Sorting, payload and exit-code lemmas -/

theorem stableInsert_length (key : Entry → Int) (x : Entry) (l : List Entry) :
    (stableInsert key x l).length = l.length + 1 := by
  induction l with
  | nil => rfl
  | cons y ys ih =>
      unfold stableInsert
      by_cases h : key y ≤ key x
      · simp [h, ih]
      · simp [h]

theorem stableSort_length (key : Entry → Int) (l : List Entry) :
    (stableSort key l).length = l.length := by
  suffices h : ∀ acc : List Entry,
      (l.foldl (fun acc x => stableInsert key x acc) acc).length = acc.length + l.length by
    simpa using h []
  induction l with
  | nil => intro acc; simp
  | cons y ys ih =>
      intro acc
      simp only [List.foldl_cons]
      rw [ih, stableInsert_length, List.length_cons]
      omega

theorem survivors_ne (cfg : Config) (timeOf : Entry → Int) (entries : List Entry)
    (file0 : StateFile) (hf : (filteredEntries cfg entries file0).isEmpty = false) :
    (survivors cfg timeOf entries file0).isEmpty = false := by
  unfold survivors
  have hlen : (stableSort timeOf (filteredEntries cfg entries file0)).length =
      (filteredEntries cfg entries file0).length := stableSort_length _ _
  cases hsort : stableSort timeOf (filteredEntries cfg entries file0) with
  | nil =>
      exfalso
      rw [hsort] at hlen
      cases hfe : filteredEntries cfg entries file0 with
      | nil => rw [hfe] at hf; simp [List.isEmpty] at hf
      | cons a as => rw [hfe] at hlen; simp at hlen
  | cons a as => rfl

theorem truthyS_some_ne (t : String) (ht : t ≠ "") : truthyS (some t) = true := by
  simp [truthyS, ht]

theorem payload_thread_of_some (cfg : Config) (t : String)
    (hid : truthyS cfg.thread_id = false) (hnm : truthyS cfg.thread_name = false) :
    payload_thread_of cfg (some t) = if t ≠ "" then some t else none := by
  unfold payload_thread_of pyOrOpt
  by_cases ht : t = ""
  · subst ht
    have h1 : truthyS (some "") = false := rfl
    rw [h1, hnm]
    simp
  · rw [truthyS_some_ne t ht]
    simp only [if_true]
    rw [truthyS_some_ne t ht, hid]
    simp [ht]

theorem payload_thread_of_none (cfg : Config)
    (hnm : truthyS cfg.thread_name = false) :
    payload_thread_of cfg none = none := by
  unfold payload_thread_of pyOrOpt
  have h1 : truthyS none = false := rfl
  rw [h1, hnm]
  simp

theorem itemCallsFrom_payload (cfg : Config) (w : Nat → Bool) (eo : Entry → Embed)
    (k : Nat) (l : List Entry) (hnm : truthyS cfg.thread_name = false) :
    ∀ c ∈ itemCallsFrom cfg w eo (fun _ => none) k l, c.payload_thread = none := by
  induction l generalizing k with
  | nil => intro c hc; simp [itemCallsFrom] at hc
  | cons e rest ih =>
      intro c hc
      rw [itemCallsFrom_cons] at hc
      rcases List.mem_cons.mp hc with h | h
      · rw [h]
        exact payload_thread_of_none cfg hnm
      · exact ih (k + 1) c h

theorem batch_exit (cfg : Config) (ids : List String) (r : (Bool × Option Int) × RunSt) :
    ((batch_outcome cfg ids r).1 = 2 ↔ r.1.1 = false) := by
  unfold batch_outcome
  by_cases h : r.1.1 = true
  · simp [h]
  · rw [Bool.not_eq_true] at h
    simp [h]

theorem loop_exit (cfg : Config) (res : Bool × List String × RunSt) :
    ((loop_outcome cfg res).1 = 2 ↔ res.1 = false) := by
  unfold loop_outcome
  dsimp only
  by_cases h : res.1 = true
  · simp [h]
  · rw [Bool.not_eq_true] at h
    simp [h]

/-! ## Posting-mode claims -/

/-- C1 counterexample: the claim says that when no posting mode is
configured the run uses the auto mode (one batched post of all embeds with
a derived title).  The coded default is `per-item`: with the mode env unset,
two survivors and an all-success network, the run makes two single-embed
posts, each carrying its own thread title — never one batched post of both
embeds. -/
theorem c1_counterexample :
    cfgDefaultMode.forum_mode = forum_mode_of none ∧
    (survivors cfgDefaultMode ceTimeOf [ceEntry1, ceEntry2] StateFile.missing).length = 2 ∧
    (mainRun cfgDefaultMode wAllOk ceEmbedOf ceTitleOf ceTimeOf [ceEntry1, ceEntry2]
        StateFile.missing).2.calls.map (fun c => (c.embeds.length, c.payload_thread)) =
      [(1, some "T"), (1, some "T")] :=
  ⟨rfl, by decide, by decide⟩

/-- C1 amended: the unset posting mode defaults to per-item, not auto; the
auto behavior applies when the mode is set to `auto` (or any value other
than per-item/single/off).  In that case, in a non-dry run, the run first
attempts one batched post of all rendered embeds with a thread title
derived from the first survivor; if that post fails it falls back to
posting each embed individually with no thread title, marking identifiers
seen per successfully posted entry. -/
theorem c1_auto_mode_behavior (cfg : Config) (w : Nat → Bool) (eo : Entry → Embed)
    (tn : Entry → String) (timeOf : Entry → Int) (entries : List Entry)
    (file0 : StateFile)
    (hw : truthyS cfg.webhook_url = true)
    (hid : truthyS cfg.thread_id = false) (hnm : truthyS cfg.thread_name = false)
    (hm1 : cfg.forum_mode ≠ "per-item") (hm2 : cfg.forum_mode ≠ "single")
    (hm3 : cfg.forum_mode ≠ "off") (hdry : cfg.dry_run = false)
    (he : entries.isEmpty = false)
    (hf : (filteredEntries cfg entries file0).isEmpty = false) :
    (w 0 = true →
      mainRun cfg w eo tn timeOf entries file0 =
        (0, ⟨1,
          [⟨(survivors cfg timeOf entries file0).map entry_fingerprint,
            (survivors cfg timeOf entries file0).map eo,
            (if tn ((survivors cfg timeOf entries file0).headD default) ≠ "" then
              some (tn ((survivors cfg timeOf entries file0).headD default)) else none),
            true, true⟩],
          if cfg.force_post then file0
          else save_state ((survivors cfg timeOf entries file0).map entry_fingerprint)
            file0⟩)) ∧
    (w 0 = false →
      mainRun cfg w eo tn timeOf entries file0 =
        ((if allOkFrom w 1 (survivors cfg timeOf entries file0) then 0 else 2),
         ⟨1 + (survivors cfg timeOf entries file0).length,
          ⟨(survivors cfg timeOf entries file0).map entry_fingerprint,
            (survivors cfg timeOf entries file0).map eo,
            (if tn ((survivors cfg timeOf entries file0).headD default) ≠ "" then
              some (tn ((survivors cfg timeOf entries file0).headD default)) else none),
            true, false⟩ ::
            itemCallsFrom cfg w eo (fun _ => none) 1 (survivors cfg timeOf entries file0),
          if !(postedFrom w 1 (survivors cfg timeOf entries file0)).isEmpty &&
              !cfg.force_post then
            save_state (postedFrom w 1 (survivors cfg timeOf entries file0)) file0
          else file0⟩)) ∧
    (∀ c ∈ itemCallsFrom cfg w eo (fun _ => none) 1 (survivors cfg timeOf entries file0),
      c.payload_thread = none) := by
  have hex : (truthyS cfg.thread_id || truthyS cfg.thread_name) = false := by
    rw [hid, hnm]; rfl
  have hts : ((survivors cfg timeOf entries file0).map eo).isEmpty = false := by
    cases hs : survivors cfg timeOf entries file0 with
    | nil => exact absurd (hs ▸ survivors_ne cfg timeOf entries file0 hf) (by simp [hs])
    | cons a as => rfl
  rw [mainRun_auto cfg w eo tn timeOf entries file0 hw he hf hex hm1 hm2 hm3]
  dsimp only
  rw [post_live cfg w _ _ _ _ hw hts hdry]
  rw [payload_thread_of_some cfg _ hid hnm]
  dsimp only
  refine ⟨?_, ?_, itemCallsFrom_payload cfg w eo 1 _ hnm⟩
  · intro h0
    rw [h0]
    simp only [if_true]
    unfold batch_outcome
    simp only [if_true]
    by_cases hfp : cfg.force_post = true
    · simp [hfp]
    · simp only [Bool.not_eq_true] at hfp
      simp [hfp]
  · intro h0
    rw [h0]
    simp only [Bool.false_eq_true, if_false]
    rw [per_item_loop_char cfg w eo (fun _ => none) _ _ hw hdry]
    unfold loop_outcome
    dsimp only
    rw [List.nil_append, List.singleton_append]
    by_cases hcond : (!(postedFrom w 1 (survivors cfg timeOf entries file0)).isEmpty &&
        !cfg.force_post) = true
    · rw [if_pos hcond, if_pos hcond]
    · rw [if_neg hcond, if_neg hcond]

/-- C1 witness: with the mode set to `auto`, one unseen entry and an
all-success network, the amended theorem applies and the run exits 0. -/
theorem c1_auto_mode_behavior_witness :
    (mainRun cfgAutoMode wAllOk ceEmbedOf ceTitleOf ceTimeOf [ceEntry1]
      StateFile.missing).1 = 0 := by
  have h := c1_auto_mode_behavior cfgAutoMode wAllOk ceEmbedOf ceTitleOf ceTimeOf
    [ceEntry1] StateFile.missing (by decide) (by decide) (by decide) (by decide)
    (by decide) (by decide) (by decide) (by decide) (by decide)
  rw [h.1 rfl]

/-- C8 counterexample: the claim says the exit code is 2 when one or more
deliveries fail, but in `auto` mode a failed batched post followed by an
all-successful per-item fallback exits 0 even though a delivery (the batch)
returned failure. -/
theorem c8_counterexample :
    (mainRun cfgAutoMode wFailFirst ceEmbedOf ceTitleOf ceTimeOf [ceEntry1, ceEntry2]
      StateFile.missing).1 = 0 ∧
    ((mainRun cfgAutoMode wFailFirst ceEmbedOf ceTitleOf ceTimeOf [ceEntry1, ceEntry2]
      StateFile.missing).2.calls.head?.map PostCall.success) = some false :=
  ⟨by decide, by decide⟩

/-- C8 amended: exit code 1 when the delivery target URL is missing, with
no post attempt made; 0 when the feed yields no entries or none survive
filtering; for non-dry runs with survivors, the exit code is 2 exactly
when the final deliveries fail: batch failure in the explicit-thread,
single and off branches, some item failure in per-item mode, and in auto
mode batch failure together with some fallback-item failure (a failed batch
fully recovered by the fallback exits 0). -/
theorem c8_exit_codes (cfg : Config) (w : Nat → Bool) (eo : Entry → Embed)
    (tn : Entry → String) (timeOf : Entry → Int) (entries : List Entry)
    (file0 : StateFile) :
    (truthyS cfg.webhook_url = false →
      mainRun cfg w eo tn timeOf entries file0 = (1, ⟨0, [], file0⟩)) ∧
    (truthyS cfg.webhook_url = true → entries.isEmpty = true →
      (mainRun cfg w eo tn timeOf entries file0).1 = 0) ∧
    (truthyS cfg.webhook_url = true → entries.isEmpty = false →
      (filteredEntries cfg entries file0).isEmpty = true →
      (mainRun cfg w eo tn timeOf entries file0).1 = 0) ∧
    (truthyS cfg.webhook_url = true → entries.isEmpty = false →
      (filteredEntries cfg entries file0).isEmpty = false → cfg.dry_run = false →
      ((truthyS cfg.thread_id || truthyS cfg.thread_name) = true →
        ((mainRun cfg w eo tn timeOf entries file0).1 = 2 ↔ w 0 = false)) ∧
      ((truthyS cfg.thread_id || truthyS cfg.thread_name) = false →
        cfg.forum_mode = "per-item" →
        ((mainRun cfg w eo tn timeOf entries file0).1 = 2 ↔
          allOkFrom w 0 (survivors cfg timeOf entries file0) = false)) ∧
      ((truthyS cfg.thread_id || truthyS cfg.thread_name) = false →
        cfg.forum_mode = "single" →
        ((mainRun cfg w eo tn timeOf entries file0).1 = 2 ↔ w 0 = false)) ∧
      ((truthyS cfg.thread_id || truthyS cfg.thread_name) = false →
        cfg.forum_mode = "off" →
        ((mainRun cfg w eo tn timeOf entries file0).1 = 2 ↔ w 0 = false)) ∧
      ((truthyS cfg.thread_id || truthyS cfg.thread_name) = false →
        cfg.forum_mode ≠ "per-item" → cfg.forum_mode ≠ "single" →
        cfg.forum_mode ≠ "off" →
        ((mainRun cfg w eo tn timeOf entries file0).1 = 2 ↔
          (w 0 = false ∧
            allOkFrom w 1 (survivors cfg timeOf entries file0) = false)))) := by
  refine ⟨fun hw => mainRun_nohook cfg w eo tn timeOf entries file0 hw,
    fun hw he => by rw [mainRun_noentries cfg w eo tn timeOf entries file0 hw he],
    fun hw he hf => by rw [mainRun_nofiltered cfg w eo tn timeOf entries file0 hw he hf],
    ?_⟩
  intro hw he hf hdry
  have hts : ((survivors cfg timeOf entries file0).map eo).isEmpty = false := by
    cases hs : survivors cfg timeOf entries file0 with
    | nil => exact absurd (hs ▸ survivors_ne cfg timeOf entries file0 hf) (by simp [hs])
    | cons a as => rfl
  refine ⟨?_, ?_, ?_, ?_, ?_⟩
  · intro hex
    rw [mainRun_explicit cfg w eo tn timeOf entries file0 hw he hf hex, batch_exit]
    rw [post_live cfg w _ _ _ _ hw hts hdry]
  · intro hex hm
    rw [mainRun_peritem cfg w eo tn timeOf entries file0 hw he hf hex hm, loop_exit]
    rw [per_item_loop_char cfg w eo _ _ _ hw hdry]
  · intro hex hm
    rw [mainRun_single cfg w eo tn timeOf entries file0 hw he hf hex hm, batch_exit]
    rw [post_live cfg w _ _ _ _ hw hts hdry]
  · intro hex hm
    rw [mainRun_off cfg w eo tn timeOf entries file0 hw he hf hex hm, batch_exit]
    rw [post_live cfg w _ _ _ _ hw hts hdry]
  · intro hex hm1 hm2 hm3
    rw [mainRun_auto cfg w eo tn timeOf entries file0 hw he hf hex hm1 hm2 hm3]
    dsimp only
    rw [post_live cfg w _ _ _ _ hw hts hdry]
    dsimp only
    by_cases h0 : w 0 = true
    · rw [h0]
      simp only [if_true]
      rw [batch_exit]
      simp [h0]
    · rw [Bool.not_eq_true] at h0
      rw [h0]
      simp only [Bool.false_eq_true, if_false]
      rw [loop_exit]
      rw [per_item_loop_char cfg w eo _ _ _ hw hdry]
      simp [h0]

/-- C8 witness: with a missing delivery URL the run exits 1 having made no
post attempt. -/
theorem c8_exit_codes_witness :
    mainRun cfgNoHookDry wAllOk ceEmbedOf ceTitleOf ceTimeOf [ceEntry1]
      StateFile.missing = (1, ⟨0, [], StateFile.missing⟩) :=
  (c8_exit_codes cfgNoHookDry wAllOk ceEmbedOf ceTitleOf ceTimeOf [ceEntry1]
    StateFile.missing).1 (by decide)

/-- C9 counterexample: the claim says `post_to_discord` always returns
success under the dry-run flag, but the missing-webhook check comes first:
with the dry-run flag set and no webhook URL the function returns
`(False, None)`. -/
theorem c9_counterexample :
    (post_to_discord cfgNoHookDry wAllOk ["x"] [ceEmbedOf ceEntry1] none
      ⟨0, [], StateFile.missing⟩).1 = (false, none) ∧
    cfgNoHookDry.dry_run = true ∧
    ((false, none) : Bool × Option Int) ≠ (true, none) :=
  ⟨by decide, rfl, by decide⟩

/-- C9 amended: when the dry-run flag is set and the delivery URL is
configured, `post_to_discord` performs no HTTP request (the oracle cursor
does not advance and every new trace record is non-HTTP) and returns
`(True, None)` for any embed list; consequently `main` (without
force-post) still exits 0 and persists the identifiers of the whole capped
batch even though no message was delivered. -/
theorem c9_dry_run (cfg : Config) (w : Nat → Bool)
    (hdry : cfg.dry_run = true) (hw : truthyS cfg.webhook_url = true) :
    (∀ (ids : List String) (embeds : List Embed) (tnm : Option String) (st : RunSt),
      (post_to_discord cfg w ids embeds tnm st).1 = (true, none) ∧
      (post_to_discord cfg w ids embeds tnm st).2.k = st.k ∧
      ∀ c ∈ (post_to_discord cfg w ids embeds tnm st).2.calls,
        c ∈ st.calls ∨ c.http = false) ∧
    (∀ (eo : Entry → Embed) (tn : Entry → String) (timeOf : Entry → Int)
        (entries : List Entry) (file0 : StateFile),
      cfg.force_post = false → entries.isEmpty = false →
      (filteredEntries cfg entries file0).isEmpty = false →
      (mainRun cfg w eo tn timeOf entries file0).1 = 0 ∧
      (mainRun cfg w eo tn timeOf entries file0).2.file =
        save_state ((survivors cfg timeOf entries file0).map entry_fingerprint)
          file0) := by
  constructor
  · intro ids embeds tnm st
    unfold post_to_discord
    rw [hw]
    simp only [Bool.not_true, Bool.false_eq_true, if_false]
    by_cases hne : embeds.isEmpty = true
    · rw [if_pos hne]
      refine ⟨rfl, rfl, ?_⟩
      intro c hc
      rcases List.mem_append.mp hc with h | h
      · exact Or.inl h
      · right
        simp only [List.mem_singleton] at h
        rw [h]
    · rw [if_neg hne]
      rw [if_pos hdry]
      refine ⟨rfl, rfl, ?_⟩
      intro c hc
      rcases List.mem_append.mp hc with h | h
      · exact Or.inl h
      · right
        simp only [List.mem_singleton] at h
        rw [h]
  · intro eo tn timeOf entries file0 hforce he hf
    have hts : ((survivors cfg timeOf entries file0).map eo).isEmpty = false := by
      cases hs : survivors cfg timeOf entries file0 with
      | nil => exact absurd (hs ▸ survivors_ne cfg timeOf entries file0 hf) (by simp [hs])
      | cons a as => rfl
    have hpid : ((survivors cfg timeOf entries file0).map entry_fingerprint).isEmpty =
        false := by
      cases hs : survivors cfg timeOf entries file0 with
      | nil => exact absurd (hs ▸ survivors_ne cfg timeOf entries file0 hf) (by simp [hs])
      | cons a as => rfl
    by_cases hex : (truthyS cfg.thread_id || truthyS cfg.thread_name) = true
    · rw [mainRun_explicit cfg w eo tn timeOf entries file0 hw he hf hex]
      rw [post_dry cfg w _ _ _ _ hw hts hdry]
      unfold batch_outcome
      simp [hforce]
    · rw [Bool.not_eq_true] at hex
      by_cases hm : cfg.forum_mode = "per-item"
      · rw [mainRun_peritem cfg w eo tn timeOf entries file0 hw he hf hex hm]
        rw [per_item_loop_dry cfg w eo _ _ _ hw hdry]
        unfold loop_outcome
        dsimp only
        rw [List.nil_append]
        have hcond : (!((survivors cfg timeOf entries file0).map
            entry_fingerprint).isEmpty && !cfg.force_post) = true := by
          rw [hpid, hforce]
          rfl
        rw [if_pos hcond]
        exact ⟨rfl, rfl⟩
      · by_cases hm2 : cfg.forum_mode = "single"
        · rw [mainRun_single cfg w eo tn timeOf entries file0 hw he hf hex hm2]
          rw [post_dry cfg w _ _ _ _ hw hts hdry]
          unfold batch_outcome
          simp [hforce]
        · by_cases hm3 : cfg.forum_mode = "off"
          · rw [mainRun_off cfg w eo tn timeOf entries file0 hw he hf hex hm3]
            rw [post_dry cfg w _ _ _ _ hw hts hdry]
            unfold batch_outcome
            simp [hforce]
          · rw [mainRun_auto cfg w eo tn timeOf entries file0 hw he hf hex hm hm2 hm3]
            dsimp only
            rw [post_dry cfg w _ _ _ _ hw hts hdry]
            dsimp only
            simp only [if_true]
            unfold batch_outcome
            simp [hforce]

/-- C9 witness: a dry run over one unseen entry returns success from
`post_to_discord` and persists the capped batch to the state file even
though nothing was delivered. -/
theorem c9_dry_run_witness :
    (post_to_discord cfgDryRun wAllOk ["L1"] [ceEmbedOf ceEntry1] none
      ⟨0, [], StateFile.missing⟩).1 = (true, none) ∧
    (mainRun cfgDryRun wAllOk ceEmbedOf ceTitleOf ceTimeOf [ceEntry1]
        StateFile.missing).2.file =
      save_state ((survivors cfgDryRun ceTimeOf [ceEntry1] StateFile.missing).map
        entry_fingerprint) StateFile.missing := by
  have h := c9_dry_run cfgDryRun wAllOk rfl (by decide)
  exact ⟨(h.1 _ _ _ _).1,
    (h.2 ceEmbedOf ceTitleOf ceTimeOf [ceEntry1] StateFile.missing rfl rfl (by decide)).2⟩

end CopilotChangelog
